import Mathlib

/-!
# Verification of the kompressor per-image compression pipeline

A shallow embedding of `src/kompressor/kompressor.py` and the batch-collection
loop of `src/kompressor/cli.py`.

Conventions of the embedding:
* Python `pathlib.Path` values are modelled by `PyPath`: an absolute-flag plus
  the list of path components.  `Path(a, b, c)` joining, `.parent`, `.name`,
  `.stem`, `.suffix` and `.with_suffix` follow CPython's pathlib rules
  (a later absolute component discards the earlier ones; the suffix of a name
  is taken from its last dot when that dot is neither first nor last).
* The on-disk state is a finite map from paths to file contents (`FS`, an
  association list).  Directories are not tracked: the only directory
  operation in the source, `output_dir.mkdir(parents=True, exist_ok=True)`
  with `FileExistsError` ignored, never deletes or alters a file.
* File contents are a small inductive `Content` recording provenance
  (pristine bytes, PIL re-encode, PIL resize, external-tool rewrite).
  Pixel-dimension arithmetic and byte sizes of transformed files belong to
  the external imaging library and the external tools; they are abstracted
  (no claim depends on them), while which paths are read, written and
  deleted is modelled exactly.
* Exceptions are modelled by `Except KErr`; `KErr` distinguishes the Python
  exception classes the CLI dispatches on (`FileNotFoundError`,
  `shutil.SameFileError`, `ValueError`, and `FileNotFoundError` raised by
  `subprocess.run` for a missing executable).
* External tools are an environment `ToolEnv` giving, per command line,
  whether the executable is missing, the exit status and the captured
  output.  `run_cmd` in the source ignores the completed process entirely;
  the model mirrors that.
-/

/-- A Python `pathlib` path: absolute flag plus components.
The final component is the file name. -/
structure PyPath where
  absolute : Bool
  comps : List String
deriving DecidableEq, Repr

/-- `Path.name`: the final path component (empty for a bare root). -/
def PyPath.name (p : PyPath) : String := p.comps.getLast?.getD ""

/-- `Path.parent`: drop the final component. -/
def PyPath.parent (p : PyPath) : PyPath := ⟨p.absolute, p.comps.dropLast⟩

/-- `Path(a, b)`: a later absolute component discards the earlier path. -/
def pyJoin (a b : PyPath) : PyPath :=
  if b.absolute then b else ⟨a.absolute, a.comps ++ b.comps⟩

/-- A relative path consisting of a single file name. -/
def relFile (n : String) : PyPath := ⟨false, [n]⟩

/-- Index of the last `'.'` in a list of characters, if any. -/
def lastDotPos : List Char → Option Nat
  | [] => none
  | c :: t =>
    match lastDotPos t with
    | some i => some (i + 1)
    | none => if c = '.' then some 0 else none

/-- CPython `pathlib` stem/suffix split of a file name: the suffix starts at
the last dot provided that dot is neither the first nor the last character
(`0 < i < len(name) - 1`); otherwise the suffix is empty. -/
def stemExt (n : String) : String × String :=
  match lastDotPos n.toList with
  | none => (n, "")
  | some i =>
    if 0 < i ∧ i + 1 < n.toList.length then
      ((n.toList.take i).asString, (n.toList.drop i).asString)
    else (n, "")

/-- `Path.with_suffix(s)`: replace the (possibly empty) suffix of the final
component by `s`. -/
def withSuffix (p : PyPath) (s : String) : PyPath :=
  ⟨p.absolute, p.comps.dropLast ++ [(stemExt p.name).1 ++ s]⟩

/-- Python `str.lower()` (character-wise lowercasing). -/
def strLower (s : String) : String := (s.toList.map Char.toLower).asString

/-- Rendering of a path as the string handed to external commands. -/
def pathStr (p : PyPath) : String :=
  (if p.absolute then "/" else "") ++ String.intercalate "/" p.comps

/-- File contents with provenance.  `img` is a pristine image file
(identified by an id, with width, height and byte size); the other
constructors record the mutations the pipeline can apply.  The dimension
and byte-size arithmetic of the external imaging library and of the
external tools is abstracted. -/
inductive Content
  | img (id w h sz : Nat)
  | reencode (c : Content) (fmt : String)
  | resized (c : Content) (bw bh : Nat)
  | tooled (c : Content) (tool : String)
deriving DecidableEq, Repr

/-- Reported dimensions of a content value (imaging-library arithmetic
abstracted: a resize clamps to the bounding box). -/
def Content.dims : Content → Nat × Nat
  | .img _ w h _ => (w, h)
  | .reencode c _ => c.dims
  | .resized c bw bh => (min c.dims.1 bw, min c.dims.2 bh)
  | .tooled c _ => c.dims

/-- Reported byte size of a content value (sizes of transformed files are
abstracted: no claim depends on them). -/
def Content.csize : Content → Nat
  | .img _ _ _ sz => sz
  | .reencode c _ => c.csize
  | .resized c _ _ => c.csize
  | .tooled c _ => c.csize

/-- The file system: a finite map from paths to contents. -/
def FS := List (PyPath × Content)

instance : DecidableEq FS := by unfold FS; infer_instance

def fsLookup : FS → PyPath → Option Content
  | [], _ => none
  | (q, c) :: t, p => if q = p then some c else fsLookup t p

def fsRemove : FS → PyPath → FS
  | [], _ => []
  | (q, c) :: t, p => if q = p then fsRemove t p else (q, c) :: fsRemove t p

def fsUpdate (fs : FS) (p : PyPath) (c : Content) : FS :=
  (p, c) :: fsRemove fs p

@[simp] theorem fsLookup_remove (fs : FS) (p q : PyPath) :
    fsLookup (fsRemove fs p) q = if q = p then none else fsLookup fs q := by
  induction fs with
  | nil => simp [fsRemove, fsLookup]
  | cons e t ih =>
    obtain ⟨r, c⟩ := e
    simp only [fsRemove, fsLookup]
    by_cases hrp : r = p
    · subst hrp
      rw [if_pos rfl, ih]
      by_cases hq : q = r
      · simp [hq]
      · simp [hq, Ne.symm hq]
    · rw [if_neg hrp]
      simp only [fsLookup, ih]
      by_cases h1 : r = q
      · subst h1
        by_cases h2 : r = p
        · exact absurd h2 hrp
        · simp [h2]
      · by_cases h2 : q = p <;> simp [h1, h2, hrp]

@[simp] theorem fsLookup_update (fs : FS) (p q : PyPath) (c : Content) :
    fsLookup (fsUpdate fs p c) q = if q = p then some c else fsLookup fs q := by
  unfold fsUpdate
  simp only [fsLookup]
  rw [fsLookup_remove]
  by_cases hq : q = p
  · simp [hq]
  · simp [hq, Ne.symm hq]

/-- The stem and suffix of a name concatenate back to the name. -/
theorem stemExt_recompose (n : String) : (stemExt n).1 ++ (stemExt n).2 = n := by
  unfold stemExt
  cases h : lastDotPos n.toList with
  | none => simp
  | some i =>
    dsimp only
    by_cases hc : 0 < i ∧ i + 1 < n.toList.length
    · rw [if_pos hc]
      have h2 : (n.toList.take i).asString ++ (n.toList.drop i).asString
          = (n.toList.take i ++ n.toList.drop i).asString := by
        cases n with
        | mk data => rfl
      show (n.toList.take i).asString ++ (n.toList.drop i).asString = n
      rw [h2, List.take_append_drop]
      cases n with
      | mk data => rfl
    · rw [if_neg hc]
      show n ++ "" = n
      cases n with
      | mk data =>
        show String.mk (data ++ []) = String.mk data
        rw [List.append_nil]

example : stemExt "photo.jpg" = ("photo", ".jpg") := by decide
example : stemExt "photo" = ("photo", "") := by decide
example : stemExt ".bashrc" = (".bashrc", "") := by decide
example : stemExt "a.tar.gz" = ("a.tar", ".gz") := by decide
example : stemExt "a." = ("a.", "") := by decide

/-- The exception classes the program distinguishes.  `fileNotFound` and
`sameFile` are `OSError` subclasses in Python; `unsupported` is the
`ValueError` raised by `Compress.get_type`; `cmdNotFound` is the
`FileNotFoundError` raised by `subprocess.run` for a missing executable. -/
inductive KErr
  | fileNotFound (p : PyPath)
  | sameFile (p : PyPath)
  | unsupported (t : String)
  | cmdNotFound (exe : String)
deriving DecidableEq, Repr

/-- Whether the exception is an `OSError` (the CLI catches
`FileNotFoundError` and `OSError` and exits; `ValueError` is uncaught). -/
def KErr.isOSError : KErr → Bool
  | .unsupported _ => false
  | _ => true

/-- The behaviour of the external executables: whether an executable is
missing from the search path, and the exit status and captured output of a
command line.  (`subprocess.run(cmd, capture_output=True)` raises
`FileNotFoundError` for a missing executable and otherwise returns a
completed process whose status and output the source discards.) -/
structure ToolEnv where
  missing : String → Bool
  exitCode : List String → Nat
  stdout : List String → String

/-- One engine invocation's configuration: the constructor arguments of
`Compress` plus the attributes the CLI sets afterwards
(`dest_extra_name`, `source_extra_name`, `size`, `convert`). -/
structure Request where
  source : PyPath
  quality : Nat
  outputDir : PyPath
  destSuffix : String
  sourceSuffix : String
  size : Nat × Nat
  convert : Option String
deriving DecidableEq, Repr

/-- The `ImageData` dataclass. -/
structure ImageData where
  compressed_image : PyPath
  source_image : PyPath
  original_size : Nat
  compressed_size : Nat
  sizes : List (Nat × Nat)
deriving DecidableEq, Repr

/-- Observation record of one engine run: which resize calls were made and
which external command lines were actually executed. -/
structure Trace where
  resizes : List (PyPath × Nat × Nat)
  tools : List (List String)
deriving DecidableEq, Repr

def Trace.empty : Trace := ⟨[], []⟩

/-- Python truthiness of an optional string (`None` and `""` are falsy). -/
def optTruthy : Option String → Bool
  | none => false
  | some s => !s.isEmpty

/-- `Compress.create_new_name`: `base = stem + suffix + ext` of the source
image's name, placed at `Path(source.parent, dest_dir, base)`. -/
def create_new_name (source : PyPath) (dest_dir : PyPath) (suffix : String) : PyPath :=
  let st := (stemExt source.name).1
  let ex := (stemExt source.name).2
  let base := st ++ suffix ++ ex
  pyJoin (pyJoin source.parent dest_dir) (relFile base)

/-- `Compress.make_filenames`: destination name always; renamed-source name
only when `source_extra_name` is truthy.  Returns `(dest, source_new)`. -/
def make_filenames (req : Request) : PyPath × Option PyPath :=
  let source_new :=
    if req.sourceSuffix.isEmpty then none
    else some (create_new_name req.source req.source.parent req.sourceSuffix)
  let dest := create_new_name req.source req.outputDir req.destSuffix
  (dest, source_new)

/-- `os.rename` / `Path.rename`: moves the file, silently replacing any
existing file at the target (POSIX semantics); `FileNotFoundError` when the
source is missing. -/
def osRename (src dst : PyPath) (fs : FS) : Except KErr FS :=
  match fsLookup fs src with
  | none => .error (.fileNotFound src)
  | some c => .ok (fsUpdate (fsRemove fs src) dst c)

/-- `shutil.copy`: raises `SameFileError` when source and destination are
the same file, `FileNotFoundError` when the source is missing, and
otherwise copies, silently replacing any existing destination file. -/
def shutilCopy (src dst : PyPath) (fs : FS) : Except KErr FS :=
  if src = dst then .error (.sameFile dst)
  else
    match fsLookup fs src with
    | none => .error (.fileNotFound src)
    | some c => .ok (fsUpdate fs dst c)

/-- `Compress.copy_move`: if a renamed-source name is given, rename the
original in place, then copy the renamed file to the destination;
otherwise copy the original to the destination.  A `SameFileError` from
the copy is re-raised (same exception class, new message).  The returned
file system reflects partial progress when the copy fails after the
rename. -/
def copy_move (source dest : PyPath) (source_new : Option PyPath) (fs : FS) :
    Except KErr Unit × FS :=
  match source_new with
  | some r =>
    match osRename source r fs with
    | .error e => (.error e, fs)
    | .ok fs1 =>
      match shutilCopy r dest fs1 with
      | .error e => (.error e, fs1)
      | .ok fs2 => (.ok (), fs2)
  | none =>
    match shutilCopy source dest fs with
    | .error e => (.error e, fs)
    | .ok fs2 => (.ok (), fs2)

/-- `convert_image`: save a re-encoded copy at the path with the new
format's extension, then unlink the old path.  When the new path equals
the old one (converting to the format the extension already has), the
freshly saved file is unlinked: the file is gone. -/
def convert_image (image : PyPath) (new_format : String) (fs : FS) :
    Except KErr (PyPath × FS) :=
  let new_image := withSuffix image ("." ++ new_format)
  match fsLookup fs image with
  | none => .error (.fileNotFound image)
  | some c =>
    .ok (new_image, fsRemove (fsUpdate fs new_image (.reencode c new_format)) image)

/-- `resize_image`: open, thumbnail to the bounding box, save in place;
returns `[original dims, new dims]`. -/
def resize_image (image : PyPath) (max_width max_height : Nat) (fs : FS) :
    Except KErr (List (Nat × Nat) × FS) :=
  match fsLookup fs image with
  | none => .error (.fileNotFound image)
  | some c =>
    .ok ([c.dims, (Content.resized c max_width max_height).dims],
      fsUpdate fs image (.resized c max_width max_height))

/-- `image_dimensions`: open, read dims, no mutation. -/
def image_dimensions (image : PyPath) (fs : FS) : Except KErr (List (Nat × Nat)) :=
  match fsLookup fs image with
  | none => .error (.fileNotFound image)
  | some c => .ok [c.dims]

/-- The supported-format table `Compress.types`. -/
def typesMap (s : String) : Option String :=
  if s = "png" then some "png"
  else if s = "jpeg" then some "jpeg"
  else if s = "jpg" then some "jpeg"
  else if s = "webp" then some "webp"
  else none

/-- The lowercased extension (leading dot removed) of a path's name,
exactly as `Compress.get_type` computes it. -/
def extTag (image : PyPath) : String :=
  strLower ((stemExt image.name).2.toList.drop 1).asString

/-- `Compress.get_type`: canonical format tag, or `ValueError`. -/
def get_type (image : PyPath) : Except KErr String :=
  match typesMap (extTag image) with
  | some t => .ok t
  | none => .error (.unsupported (extTag image))

/-- `Compress.run_cmd` (named `runCmd` here): run the command capturing
output; raise `FileNotFoundError` when the executable is missing;
otherwise the completed process (exit status and captured output) is
discarded. -/
def runCmd (env : ToolEnv) (cmd : List String) : Except KErr Unit :=
  if env.missing (cmd.headD "") then .error (.cmdNotFound (cmd.headD ""))
  else
    let _completed := (env.exitCode cmd, env.stdout cmd)
    .ok ()

/-- The `jpegoptim` command line built by `compress_jpeg`. -/
def jpegCmd (quality : Nat) (image : PyPath) : List String :=
  ["jpegoptim", "--quiet", "--overwrite", "--strip-exif", "--max",
    toString quality, pathStr image]

/-- The `pngquant` command line built by `compress_png`. -/
def pngCmd (quality : Nat) (image : PyPath) : List String :=
  ["pngquant", "--force", "--quality", "0-" ++ toString quality, "--output",
    pathStr image, pathStr image]

/-- The `cwebp` command line built by `compress_webp`. -/
def webpCmd (quality : Nat) (image : PyPath) : List String :=
  ["cwebp", "-q", toString quality, "-o", pathStr image, pathStr image]

/-- Shared shape of `compress_jpeg` / `compress_png` / `compress_webp`:
run the tool via `run_cmd`; when the process actually ran, it rewrites the
file at `image` (all three command lines write the very path they read)
and the invocation is recorded in the trace. -/
def runTool (env : ToolEnv) (cmd : List String) (image : PyPath) (tool : String)
    (fs : FS) (tr : Trace) : Except KErr Unit × FS × Trace :=
  match runCmd env cmd with
  | .error e => (.error e, fs, tr)
  | .ok () =>
    let fs' :=
      match fsLookup fs image with
      | some c => fsUpdate fs image (.tooled c tool)
      | none => fs
    (.ok (), fs', { tr with tools := tr.tools ++ [cmd] })

/-- The tail of `Compress.compress` after the staging copy: optional
`convert_image` (on truthy `convert`), resize or dimension query (resize
unless `size == (0, 0)`), `get_type` on the destination, dispatch to the
format's external tool, stat of the result, and construction of
`ImageData` (whose `source_image` is the pre-rename `self.source_image`).
Split out of `compressRun` purely to structure the proofs; `compressRun`
runs the source's statement sequence unchanged. -/
def compressAfterStage (env : ToolEnv) (req : Request) (dest : PyPath)
    (original_size : Nat) (fs1 : FS) : Except KErr ImageData × FS × Trace :=
      match
        (if optTruthy req.convert then
          convert_image dest (req.convert.getD "") fs1
        else Except.ok (dest, fs1)) with
      | .error e => (.error e, fs1, Trace.empty)
      | .ok (ci, fs2) =>
        match
          ((if req.size ≠ (0, 0) then
            match resize_image ci req.size.1 req.size.2 fs2 with
            | .error e => .error e
            | .ok (sizes, fs3) =>
              .ok (sizes, fs3, ({ Trace.empty with
                resizes := [(ci, req.size.1, req.size.2)] } : Trace))
          else
            match image_dimensions ci fs2 with
            | .error e => .error e
            | .ok sizes => .ok (sizes, fs2, Trace.empty)) :
            Except KErr (List (Nat × Nat) × FS × Trace)) with
        | .error e => (.error e, fs2, Trace.empty)
        | .ok (sizes, fs3, tr1) =>
          match get_type ci with
          | .error e => (.error e, fs3, tr1)
          | .ok t =>
            match
              (if t = "jpeg" then runTool env (jpegCmd req.quality ci) ci "jpegoptim" fs3 tr1
              else if t = "png" then runTool env (pngCmd req.quality ci) ci "pngquant" fs3 tr1
              else if t = "webp" then runTool env (webpCmd req.quality ci) ci "cwebp" fs3 tr1
              else (.error (.unsupported t), fs3, tr1)) with
            | (.error e, fs4, tr2) => (.error e, fs4, tr2)
            | (.ok (), fs4, tr2) =>
              match fsLookup fs4 ci with
              | none => (.error (.fileNotFound ci), fs4, tr2)
              | some cc =>
                (.ok ⟨ci, req.source, original_size, cc.csize, sizes⟩, fs4, tr2)

/-- `Compress.compress`: the per-image pipeline.  Returns the outcome, the
resulting file system and the observation trace.  Mirrors the source:
stat of the source (`FileNotFoundError` when missing), mkdir of the
output directory (no file-level effect, `FileExistsError` ignored —
not modelled), `make_filenames`, `copy_move`, then the post-staging tail
`compressAfterStage`. -/
def compressRun (env : ToolEnv) (req : Request) (fs0 : FS) :
    Except KErr ImageData × FS × Trace :=
  match fsLookup fs0 req.source with
  | none => (.error (.fileNotFound req.source), fs0, Trace.empty)
  | some c0 =>
    let original_size := c0.csize
    let (dest, source_new) := make_filenames req
    match copy_move req.source dest source_new fs0 with
    | (.error e, fs1) => (.error e, fs1, Trace.empty)
    | (.ok (), fs1) => compressAfterStage env req dest original_size fs1

/-- The CLI's accepted suffixes (`image_types` in `kompressor` of `cli.py`). -/
def imageTypesCli : List String := [".png", ".jpeg", ".jpg", ".webp"]

/-- The CLI's pre-submission filter: keep a source file only when its
lowercased suffix is in `image_types`. -/
def cliFilter (sources : List PyPath) : List PyPath :=
  sources.filter (fun p => imageTypesCli.contains (strLower (stemExt p.name).2))

/-- What the batch run ends in: displaying results, `sys.exit(1)` from a
caught `FileNotFoundError`/`OSError`, or an uncaught exception. -/
inductive BatchOutcome
  | display (results : List ImageData)
  | exitError
  | crash
deriving DecidableEq, Repr

/-- The CLI's result-collection loop over completed futures: the first
`FileNotFoundError`/`OSError` exits the process, any other exception
(such as `get_type`'s `ValueError`) propagates uncaught; only when every
future succeeded are the collected results displayed. -/
def cliCollect : List (Except KErr ImageData) → List ImageData → BatchOutcome
  | [], acc => .display acc
  | .ok d :: rest, acc => cliCollect rest (acc ++ [d])
  | .error e :: _, _ => if e.isOSError then .exitError else .crash

/-- The `kompressor` CLI command on a list of sources: filter by suffix,
build one `Compress` per file (truthy rename options applied), submit all,
then collect.  Completion order is modelled as submission order — one
admissible schedule of `as_completed`.  Every submitted image's
`compress` runs to completion (the executor drains in-flight work even
when the collection loop exits early); each is run here against the
initial file system, which coincides with the threaded execution whenever
the images' staging paths are disjoint. -/
def cliBatch (env : ToolEnv) (fs : FS) (sources : List PyPath) (outputDir : PyPath)
    (quality : Nat) (destRename sourceRename convert : Option String)
    (size : Nat × Nat) : BatchOutcome :=
  let files := cliFilter sources
  let reqs := files.map (fun f =>
    ({ source := f, quality := quality, outputDir := outputDir,
       destSuffix := if optTruthy destRename then destRename.getD "" else "",
       sourceSuffix := if optTruthy sourceRename then sourceRename.getD "" else "",
       size := size, convert := convert } : Request))
  cliCollect (reqs.map (fun r => (compressRun env r fs).1)) []

/-- Round-half-to-even (Python `round`) of the fraction `num / den`,
`den > 0`, for non-negative values. -/
def pyRoundFrac (num den : Nat) : Nat :=
  let q := num / den
  let r := num % den
  if 2 * r < den then q
  else if den < 2 * r then q + 1
  else if q % 2 = 0 then q else q + 1

/-- The scaling loop of `humanize`, carried exactly: the running float
`precise_size` always equals `size / 1024 ^ pw`, represented by the pair
`(num, pw)` (division by 1024 is a binary-exponent shift, exact in
Python's float for the magnitudes the claims exercise, and the `>= 1024`
comparison agrees with the exact value for every integer size).  The loop
body runs while `precise_size >= 1024 and index < len(units) - 1`; the
index is bounded by 3, so fuel 3 from index 0 is exact. -/
def hloopF : Nat → Nat × Nat → Nat → (Nat × Nat) × Nat
  | 0, st, i => (st, i)
  | f + 1, (num, pw), i =>
    if 1024 ^ (pw + 1) ≤ num ∧ i < 3 then hloopF f (num, pw + 1) (i + 1)
    else ((num, pw), i)

/-- The `units` list of `humanize`. -/
def unitsList : List String := ["B", "K", "M", "G"]

/-- Python's rendering `f"{x}"` of a float that is an exact multiple of a
tenth in the claims' range: integer part, dot, tenths digit.  (Applied only
to values produced by `round(_, 1)`, which always print with one decimal,
e.g. `1.0`.) -/
def fmtTenths (t : Nat) : String := toString (t / 10) ++ "." ++ toString (t % 10)

/-- `humanize`: scale by 1024 through B, K, M, G, stopping at G; round to
1 decimal when the reached index is `>= 2` (M and G), otherwise `round`
to an integer. -/
def humanize (size : Nat) : String :=
  let scaled := hloopF 3 (size, 0) 0
  let num := scaled.1.1
  let den := 1024 ^ scaled.1.2
  let index := scaled.2
  let pretty :=
    if 2 ≤ index then fmtTenths (pyRoundFrac (num * 10) den)
    else toString (pyRoundFrac num den)
  pretty ++ unitsList.getD index ""

example : humanize 0 = "0B" := by decide
example : humanize 1023 = "1023B" := by decide
example : humanize 1024 = "1K" := by decide
example : humanize 1000000 = "977K" := by decide
example : humanize 1000000000 = "953.7M" := by decide
example : humanize 1073741824 = "1.0G" := by decide
example : humanize 1610612736 = "1.5G" := by decide

/-- An environment in which every executable is present, exits 0 and
prints nothing. -/
def envOk : ToolEnv := ⟨fun _ => false, fun _ => 0, fun _ => ""⟩

/-- Shorthand for an absolute path. -/
def absPath (l : List String) : PyPath := ⟨true, l⟩

deriving instance DecidableEq for Except

/-- Whether an `Except` is a success. -/
def exceptOk {ε α : Type} : Except ε α → Bool
  | .ok _ => true
  | .error _ => false

/-- The destination name `Compress.make_filenames` computes. -/
def destName (req : Request) : PyPath := (make_filenames req).1

/-- The renamed-source name `Compress.make_filenames` computes when a
source suffix is set. -/
def renamedName (req : Request) : PyPath :=
  create_new_name req.source req.source.parent req.sourceSuffix

/-- Where the user's original bytes live after the Stage step: at the
renamed-source path when a source suffix was requested, else at the
original source path. -/
def survivingPath (req : Request) : PyPath :=
  if req.sourceSuffix.isEmpty then req.source else renamedName req

/-- The path `convert_image` writes when conversion is requested: the
destination name with its suffix replaced by the target format's. -/
def convertedName (req : Request) : PyPath :=
  withSuffix (destName req) ("." ++ req.convert.getD "")

theorem strAppend_empty (s : String) : s ++ "" = s := by
  cases s with
  | mk data =>
    show String.mk (data ++ []) = String.mk data
    rw [List.append_nil]

theorem make_filenames_eq (req : Request) :
    make_filenames req =
      (destName req,
        if req.sourceSuffix.isEmpty then none else some (renamedName req)) := rfl

theorem strLength_append (s t : String) : (s ++ t).length = s.length + t.length := by
  cases s with
  | mk a =>
    cases t with
    | mk b =>
      show (String.mk (a ++ b)).length = (String.mk a).length + (String.mk b).length
      simp [String.length]

/-- With a non-empty source suffix the renamed-source path differs from
the source path: its final component is longer by the suffix's length. -/
theorem renamedName_ne_source (req : Request)
    (h : req.sourceSuffix.isEmpty = false) : renamedName req ≠ req.source := by
  intro heq
  have hs : req.sourceSuffix ≠ "" := by
    intro h0
    rw [h0] at h
    exact absurd h (by decide)
  unfold renamedName create_new_name at heq
  set q := pyJoin req.source.parent req.source.parent with hq
  set base := (stemExt req.source.name).1 ++ req.sourceSuffix ++ (stemExt req.source.name).2
    with hbase
  have hjoin : pyJoin q (relFile base) = ⟨q.absolute, q.comps ++ [base]⟩ := by
    unfold pyJoin relFile
    rfl
  rw [hjoin] at heq
  have hcomps : q.comps ++ [base] = req.source.comps := congrArg PyPath.comps heq
  have hname : req.source.name = base := by
    unfold PyPath.name
    rw [← hcomps, List.getLast?_concat]
    rfl
  have hre : (stemExt req.source.name).1 ++ (stemExt req.source.name).2
      = req.source.name := stemExt_recompose _
  have hlenbase : base.length = (stemExt req.source.name).1.length
      + req.sourceSuffix.length + (stemExt req.source.name).2.length := by
    rw [hbase, strLength_append, strLength_append]
  have hlenname : (stemExt req.source.name).1.length
      + (stemExt req.source.name).2.length = req.source.name.length := by
    rw [← strLength_append, hre]
  have heqlen : req.source.name.length = base.length := by rw [hname]
  have hzero : req.sourceSuffix.length = 0 := by omega
  apply hs
  cases hsuf : req.sourceSuffix with
  | mk data =>
    rw [hsuf] at hzero
    have hdata : data = [] := List.length_eq_zero.mp hzero
    rw [hdata]

/-- Exhaustive behaviour of `copy_move` when the source file exists. -/
theorem copy_move_cases (src dest : PyPath) (sn : Option PyPath) (fs : FS)
    (c : Content) (hsrc : fsLookup fs src = some c) :
    (sn = none ∧ src = dest ∧
      copy_move src dest sn fs = (.error (.sameFile dest), fs)) ∨
    (sn = none ∧ src ≠ dest ∧
      copy_move src dest sn fs = (.ok (), fsUpdate fs dest c)) ∨
    (∃ r, sn = some r ∧ r = dest ∧
      copy_move src dest sn fs =
        (.error (.sameFile dest), fsUpdate (fsRemove fs src) r c)) ∨
    (∃ r, sn = some r ∧ r ≠ dest ∧
      copy_move src dest sn fs =
        (.ok (), fsUpdate (fsUpdate (fsRemove fs src) r c) dest c)) := by
  cases sn with
  | none =>
    by_cases hsd : src = dest
    · refine Or.inl ⟨rfl, hsd, ?_⟩
      unfold copy_move shutilCopy
      rw [if_pos hsd]
    · refine Or.inr (Or.inl ⟨rfl, hsd, ?_⟩)
      unfold copy_move shutilCopy
      rw [if_neg hsd, hsrc]
  | some r =>
    by_cases hrd : r = dest
    · refine Or.inr (Or.inr (Or.inl ⟨r, rfl, hrd, ?_⟩))
      unfold copy_move osRename shutilCopy
      rw [hsrc]
      dsimp only
      rw [if_pos hrd]
    · refine Or.inr (Or.inr (Or.inr ⟨r, rfl, hrd, ?_⟩))
      unfold copy_move osRename shutilCopy
      rw [hsrc]
      dsimp only
      rw [if_neg hrd]
      have hlr : fsLookup (fsUpdate (fsRemove fs src) r c) r = some c := by simp
      rw [hlr]

/-- A tool invocation writes (at most) the file it is pointed at. -/
theorem runTool_fs_frame (env : ToolEnv) (cmd : List String) (img : PyPath)
    (tool : String) (fs : FS) (tr : Trace) (p : PyPath) (hp : p ≠ img) :
    fsLookup (runTool env cmd img tool fs tr).2.1 p = fsLookup fs p := by
  unfold runTool runCmd
  by_cases hm : env.missing (cmd.headD "")
  · rw [if_pos hm]
  · rw [if_neg hm]
    cases himg : fsLookup fs img with
    | none => simp
    | some c => simp [hp]

/-- A tool invocation never records a resize. -/
theorem runTool_resizes (env : ToolEnv) (cmd : List String) (img : PyPath)
    (tool : String) (fs : FS) (tr : Trace) :
    (runTool env cmd img tool fs tr).2.2.resizes = tr.resizes := by
  unfold runTool runCmd
  by_cases hm : env.missing (cmd.headD "")
  · rw [if_pos hm]
  · rw [if_neg hm]

theorem afterStage_frame (env : ToolEnv) (req : Request) (dest : PyPath) (sz : Nat)
    (fs1 : FS) (p : PyPath) (hp1 : p ≠ dest)
    (hp2 : optTruthy req.convert = true →
      p ≠ withSuffix dest ("." ++ req.convert.getD "")) :
    fsLookup (compressAfterStage env req dest sz fs1).2.1 p = fsLookup fs1 p := by
  unfold compressAfterStage
  split
  · rfl
  next ci fs2 hcv =>
    have hfact : (ci = dest ∨ (optTruthy req.convert = true ∧
        ci = withSuffix dest ("." ++ req.convert.getD ""))) ∧
        fsLookup fs2 p = fsLookup fs1 p := by
      by_cases hc : optTruthy req.convert
      · rw [if_pos hc] at hcv
        unfold convert_image at hcv
        cases hl : fsLookup fs1 dest with
        | none => rw [hl] at hcv; cases hcv
        | some c =>
          rw [hl] at hcv
          dsimp only at hcv
          have hpair := Except.ok.inj hcv
          have hci := congrArg Prod.fst hpair
          have hfs2 := congrArg Prod.snd hpair
          dsimp only at hci hfs2
          constructor
          · right; exact ⟨hc, hci.symm⟩
          · rw [← hfs2]
            simp [hp1, hp2 hc]
      · rw [if_neg hc] at hcv
        have hpair := Except.ok.inj hcv
        have hci := congrArg Prod.fst hpair
        have hfs2 := congrArg Prod.snd hpair
        dsimp only at hci hfs2
        exact ⟨Or.inl hci.symm, by rw [← hfs2]⟩
    obtain ⟨hci, hfs2p⟩ := hfact
    have hpci : p ≠ ci := by
      rcases hci with h | ⟨hc, h⟩
      · rw [h]; exact hp1
      · rw [h]; exact hp2 hc
    split
    · exact hfs2p
    next sizes fs3 tr1 hrs =>
      have hfs3 : fsLookup fs3 p = fsLookup fs2 p := by
        by_cases hsz : req.size ≠ (0, 0)
        · rw [if_pos hsz] at hrs
          unfold resize_image at hrs
          cases hl2 : fsLookup fs2 ci with
          | none => rw [hl2] at hrs; cases hrs
          | some c2 =>
            rw [hl2] at hrs
            dsimp only at hrs
            have hpair := Except.ok.inj hrs
            have hfs3e := congrArg (fun x => x.2.1) hpair
            dsimp only at hfs3e
            rw [← hfs3e]
            simp [hpci]
        · rw [if_neg hsz] at hrs
          unfold image_dimensions at hrs
          cases hl2 : fsLookup fs2 ci with
          | none => rw [hl2] at hrs; cases hrs
          | some c2 =>
            rw [hl2] at hrs
            dsimp only at hrs
            have hpair := Except.ok.inj hrs
            have hfs3e := congrArg (fun x => x.2.1) hpair
            dsimp only at hfs3e
            rw [← hfs3e]
      have hchain : fsLookup fs3 p = fsLookup fs1 p := hfs3.trans hfs2p
      split
      · exact hchain
      next t hgt =>
        split
        next res fs4 tr2 hdp =>
          have hfs4 : fsLookup fs4 p = fsLookup fs3 p := by
            by_cases h1 : t = "jpeg"
            · rw [if_pos h1] at hdp
              have hq := runTool_fs_frame env (jpegCmd req.quality ci) ci "jpegoptim" fs3 tr1 p hpci
              rw [hdp] at hq
              exact hq
            · rw [if_neg h1] at hdp
              by_cases h2 : t = "png"
              · rw [if_pos h2] at hdp
                have hq := runTool_fs_frame env (pngCmd req.quality ci) ci "pngquant" fs3 tr1 p hpci
                rw [hdp] at hq
                exact hq
              · rw [if_neg h2] at hdp
                by_cases h3 : t = "webp"
                · rw [if_pos h3] at hdp
                  have hq := runTool_fs_frame env (webpCmd req.quality ci) ci "cwebp" fs3 tr1 p hpci
                  rw [hdp] at hq
                  exact hq
                · rw [if_neg h3] at hdp
                  have := congrArg (fun x => x.2.1) hdp
                  dsimp only at this
                  rw [← this]
          exact hfs4.trans hchain
        next res fs4 tr2 hdp =>
          have hfs4 : fsLookup fs4 p = fsLookup fs3 p := by
            by_cases h1 : t = "jpeg"
            · rw [if_pos h1] at hdp
              have hq := runTool_fs_frame env (jpegCmd req.quality ci) ci "jpegoptim" fs3 tr1 p hpci
              rw [hdp] at hq
              exact hq
            · rw [if_neg h1] at hdp
              by_cases h2 : t = "png"
              · rw [if_pos h2] at hdp
                have hq := runTool_fs_frame env (pngCmd req.quality ci) ci "pngquant" fs3 tr1 p hpci
                rw [hdp] at hq
                exact hq
              · rw [if_neg h2] at hdp
                by_cases h3 : t = "webp"
                · rw [if_pos h3] at hdp
                  have hq := runTool_fs_frame env (webpCmd req.quality ci) ci "cwebp" fs3 tr1 p hpci
                  rw [hdp] at hq
                  exact hq
                · rw [if_neg h3] at hdp
                  have := congrArg (fun x => x.2.1) hdp
                  dsimp only at this
                  rw [← this]
          split
          · exact hfs4.trans hchain
          · exact hfs4.trans hchain

/-- The external-tool dispatch never records a resize. -/
theorem dispatch_resizes (env : ToolEnv) (q : Nat) (t : String) (ci : PyPath)
    (fs3 : FS) (tr1 : Trace) :
    ((if t = "jpeg" then runTool env (jpegCmd q ci) ci "jpegoptim" fs3 tr1
      else if t = "png" then runTool env (pngCmd q ci) ci "pngquant" fs3 tr1
      else if t = "webp" then runTool env (webpCmd q ci) ci "cwebp" fs3 tr1
      else (.error (.unsupported t), fs3, tr1)) :
      Except KErr Unit × FS × Trace).2.2.resizes = tr1.resizes := by
  by_cases h1 : t = "jpeg"
  · rw [if_pos h1]; exact runTool_resizes ..
  · rw [if_neg h1]
    by_cases h2 : t = "png"
    · rw [if_pos h2]; exact runTool_resizes ..
    · rw [if_neg h2]
      by_cases h3 : t = "webp"
      · rw [if_pos h3]; exact runTool_resizes ..
      · rw [if_neg h3]

/-- With `size = (0, 0)` the engine performs no resize call. -/
theorem afterStage_resizes_zero (env : ToolEnv) (req : Request) (dest : PyPath)
    (sz : Nat) (fs1 : FS) (h : req.size = (0, 0)) :
    (compressAfterStage env req dest sz fs1).2.2.resizes = [] := by
  unfold compressAfterStage
  split
  · rfl
  next ci fs2 hcv =>
    split
    · rfl
    next sizes fs3 tr1 hrs =>
      have htr1 : tr1.resizes = [] := by
        rw [if_neg (fun hn => hn h)] at hrs
        unfold image_dimensions at hrs
        cases hl : fsLookup fs2 ci with
        | none => rw [hl] at hrs; cases hrs
        | some c2 =>
          rw [hl] at hrs
          dsimp only at hrs
          have he := congrArg (fun x => x.2.2) (Except.ok.inj hrs)
          dsimp only at he
          rw [← he]
          rfl
      split
      · exact htr1
      next t hgt =>
        split
        next res fs4 tr2 hdp =>
          have hq := dispatch_resizes env req.quality t ci fs3 tr1
          rw [hdp] at hq
          exact hq.trans htr1
        next res fs4 tr2 hdp =>
          have hq := dispatch_resizes env req.quality t ci fs3 tr1
          rw [hdp] at hq
          split
          · exact hq.trans htr1
          · exact hq.trans htr1

/-- With a non-trivial `size`, a successful run records a resize call. -/
theorem afterStage_resizes_nonzero (env : ToolEnv) (req : Request) (dest : PyPath)
    (sz : Nat) (fs1 : FS) (hsz : req.size ≠ (0, 0)) :
    (compressAfterStage env req dest sz fs1).2.2.resizes ≠ [] ∨
    exceptOk (compressAfterStage env req dest sz fs1).1 = false := by
  unfold compressAfterStage
  split
  · right; rfl
  next ci fs2 hcv =>
    split
    · right; rfl
    next sizes fs3 tr1 hrs =>
      have htr1 : tr1.resizes ≠ [] := by
        rw [if_pos hsz] at hrs
        unfold resize_image at hrs
        cases hl : fsLookup fs2 ci with
        | none => rw [hl] at hrs; cases hrs
        | some c2 =>
          rw [hl] at hrs
          dsimp only at hrs
          have he := congrArg (fun x => x.2.2) (Except.ok.inj hrs)
          dsimp only at he
          rw [← he]
          simp
      split
      · right; rfl
      next t hgt =>
        split
        next res fs4 tr2 hdp =>
          right; rfl
        next res fs4 tr2 hdp =>
          have hq := dispatch_resizes env req.quality t ci fs3 tr1
          rw [hdp] at hq
          split
          · right; rfl
          · left; rw [hq]; exact htr1

/-- A successful run's `ImageData.source_image` is the request's original
(pre-rename) source path. -/
theorem afterStage_ok_source (env : ToolEnv) (req : Request) (dest : PyPath)
    (sz : Nat) (fs1 : FS) (d : ImageData)
    (hok : (compressAfterStage env req dest sz fs1).1 = Except.ok d) :
    d.source_image = req.source := by
  unfold compressAfterStage at hok
  split at hok
  · cases hok
  next ci fs2 hcv =>
    split at hok
    · cases hok
    next sizes fs3 tr1 hrs =>
      split at hok
      · cases hok
      next t hgt =>
        split at hok
        next res fs4 tr2 hdp => cases hok
        next res fs4 tr2 hdp =>
          split at hok
          · cases hok
          next cc hfin =>
            have := Except.ok.inj hok
            rw [← this]

/-- With no conversion and the destination's extension outside the table,
no external tool is ever invoked. -/
theorem afterStage_unsupported_tools (env : ToolEnv) (req : Request) (dest : PyPath)
    (sz : Nat) (fs1 : FS)
    (hconv : optTruthy req.convert = false)
    (htype : typesMap (extTag dest) = none) :
    (compressAfterStage env req dest sz fs1).2.2.tools = [] := by
  have hcond : ¬ (optTruthy req.convert = true) := by rw [hconv]; simp
  unfold compressAfterStage
  rw [if_neg hcond]
  dsimp only
  split
  · rfl
  next sizes fs3 tr1 hrs =>
    have htools : tr1.tools = [] := by
      by_cases hszp : req.size ≠ (0, 0)
      · rw [if_pos hszp] at hrs
        unfold resize_image at hrs
        cases hl : fsLookup fs1 dest with
        | none => rw [hl] at hrs; cases hrs
        | some c2 =>
          rw [hl] at hrs
          dsimp only at hrs
          have he := congrArg (fun x => x.2.2) (Except.ok.inj hrs)
          dsimp only at he
          rw [← he]
          rfl
      · rw [if_neg hszp] at hrs
        unfold image_dimensions at hrs
        cases hl : fsLookup fs1 dest with
        | none => rw [hl] at hrs; cases hrs
        | some c2 =>
          rw [hl] at hrs
          dsimp only at hrs
          have he := congrArg (fun x => x.2.2) (Except.ok.inj hrs)
          dsimp only at he
          rw [← he]
          rfl
    have hgt : get_type dest = .error (.unsupported (extTag dest)) := by
      unfold get_type
      rw [htype]
    split
    · exact htools
    next t hgt2 =>
      rw [hgt] at hgt2
      cases hgt2

/-- With no conversion, an unsupported destination extension and a staged
destination file, the run fails with the `ValueError` of `get_type`. -/
theorem afterStage_unsupported_err (env : ToolEnv) (req : Request) (dest : PyPath)
    (sz : Nat) (fs1 : FS) (c : Content)
    (hconv : optTruthy req.convert = false)
    (htype : typesMap (extTag dest) = none)
    (hl : fsLookup fs1 dest = some c) :
    (compressAfterStage env req dest sz fs1).1
      = .error (.unsupported (extTag dest)) := by
  have hcond : ¬ (optTruthy req.convert = true) := by rw [hconv]; simp
  unfold compressAfterStage
  rw [if_neg hcond]
  dsimp only
  split
  next e hrs =>
    exfalso
    by_cases hszp : req.size ≠ (0, 0)
    · rw [if_pos hszp] at hrs
      unfold resize_image at hrs
      rw [hl] at hrs
      cases hrs
    · rw [if_neg hszp] at hrs
      unfold image_dimensions at hrs
      rw [hl] at hrs
      cases hrs
  next sizes fs3 tr1 hrs =>
    have hgt : get_type dest = .error (.unsupported (extTag dest)) := by
      unfold get_type
      rw [htype]
    split
    next e hgt2 =>
      rw [hgt] at hgt2
      have := Except.error.inj hgt2
      rw [← this]
    next t hgt2 =>
      rw [hgt] at hgt2
      cases hgt2

/-- Exhaustive behaviour of the stat + staging prefix of `compressRun` when
the source exists: the four `copy_move` outcomes, each with the staged file
system handed to `compressAfterStage`. -/
theorem compressRun_cases (env : ToolEnv) (req : Request) (fs0 : FS) (c0 : Content)
    (hsrc : fsLookup fs0 req.source = some c0) :
    (req.sourceSuffix.isEmpty = true ∧ req.source = destName req ∧
      (copy_move req.source (destName req) (make_filenames req).2 fs0).1 ≠ .ok () ∧
      compressRun env req fs0 = (.error (.sameFile (destName req)), fs0, Trace.empty)) ∨
    (req.sourceSuffix.isEmpty = true ∧ req.source ≠ destName req ∧
      compressRun env req fs0 =
        compressAfterStage env req (destName req) c0.csize
          (fsUpdate fs0 (destName req) c0)) ∨
    (req.sourceSuffix.isEmpty = false ∧ renamedName req = destName req ∧
      (copy_move req.source (destName req) (make_filenames req).2 fs0).1 ≠ .ok () ∧
      compressRun env req fs0 = (.error (.sameFile (destName req)),
        fsUpdate (fsRemove fs0 req.source) (renamedName req) c0, Trace.empty)) ∨
    (req.sourceSuffix.isEmpty = false ∧ renamedName req ≠ destName req ∧
      compressRun env req fs0 =
        compressAfterStage env req (destName req) c0.csize
          (fsUpdate (fsUpdate (fsRemove fs0 req.source) (renamedName req) c0)
            (destName req) c0)) := by
  have hmf2 : (make_filenames req).2
      = if req.sourceSuffix.isEmpty then none else some (renamedName req) := rfl
  have hrun : ∀ cmres : Except KErr Unit × FS,
      copy_move req.source (destName req) (make_filenames req).2 fs0 = cmres →
      compressRun env req fs0 =
        (match cmres with
          | (.error e, fs1) => (.error e, fs1, Trace.empty)
          | (.ok (), fs1) => compressAfterStage env req (destName req) c0.csize fs1) := by
    intro cmres hcm
    unfold compressRun
    rw [hsrc]
    dsimp only
    rw [make_filenames_eq]
    dsimp only
    rw [← hmf2, hcm]
  cases hss : req.sourceSuffix.isEmpty with
  | true =>
    have hsn : (make_filenames req).2 = none := by rw [hmf2, if_pos hss]
    rcases copy_move_cases req.source (destName req) (make_filenames req).2 fs0 c0 hsrc
      with ⟨_, hsd, hcm⟩ | ⟨_, hsd, hcm⟩ | ⟨r, hr, _, _⟩ | ⟨r, hr, _, _⟩
    · exact Or.inl ⟨rfl, hsd, by rw [hcm]; simp, by rw [hrun _ hcm]⟩
    · exact Or.inr (Or.inl ⟨rfl, hsd, by rw [hrun _ hcm]⟩)
    · rw [hsn] at hr; cases hr
    · rw [hsn] at hr; cases hr
  | false =>
    have hsn : (make_filenames req).2 = some (renamedName req) := by
      rw [hmf2, if_neg (by rw [hss]; simp)]
    rcases copy_move_cases req.source (destName req) (make_filenames req).2 fs0 c0 hsrc
      with ⟨hn, _, _⟩ | ⟨hn, _, _⟩ | ⟨r, hr, hrd, hcm⟩ | ⟨r, hr, hrd, hcm⟩
    · rw [hsn] at hn; cases hn
    · rw [hsn] at hn; cases hn
    · rw [hsn] at hr
      have hrr := Option.some.inj hr
      subst hrr
      refine Or.inr (Or.inr (Or.inl ⟨rfl, hrd, by rw [hcm]; simp, ?_⟩))
      rw [hrun _ hcm]
    · rw [hsn] at hr
      have hrr := Option.some.inj hr
      subst hrr
      exact Or.inr (Or.inr (Or.inr ⟨rfl, hrd, by rw [hrun _ hcm]⟩))

/-! ## Concrete fixtures used by the claim theorems -/

/-- A single JPEG image in `/home`. -/
def fsJpg : FS := [(absPath ["home", "a.jpg"], .img 1 800 600 1000)]

/-- A plain request: compress `/home/a.jpg` into `/home/out`, no renames,
no conversion, no resize. -/
def reqPlain : Request :=
  ⟨absPath ["home", "a.jpg"], 80, absPath ["home", "out"], "", "", (0, 0), none⟩

/-- The unit `humanize` ends up in: the entry of `units` selected by the
scaling loop. -/
def humanizeUnit (size : Nat) : String := unitsList.getD (hloopF 3 (size, 0) 0).2 ""

/-- C7 counterexample: the claim asserts `humanize 1000000000 = "954M"`,
but the code rounds the M tier to one decimal place (`round(x, 1)` is
applied whenever the unit index is ≥ 2, which covers M as well as G), so
the output is `"953.7M"`. -/
theorem humanize_billion_not_954M : humanize 1000000000 ≠ "954M" := by decide

/-- C7 (amended): `humanize` scales by 1024 through B, K, M, G, stopping at
G even when the value still exceeds 1024 G; it rounds to 0 decimal places
for the B and K tiers and to 1 decimal place for the M and G tiers;
`humanize 0 = "0B"`, `humanize 1023 = "1023B"`, `humanize 1024 = "1K"`,
`humanize 1000000 = "977K"`, `humanize 1000000000 = "953.7M"`, and for
every value ≥ 1024³ the unit in the output is `"G"`. -/
theorem humanize_spec :
    humanize 0 = "0B" ∧ humanize 1023 = "1023B" ∧ humanize 1024 = "1K" ∧
    humanize 1000000 = "977K" ∧ humanize 1000000000 = "953.7M" ∧
    humanize 1073741824 = "1.0G" ∧ humanize 1610612736 = "1.5G" ∧
    ∀ n : Nat, 1024 ^ 3 ≤ n → humanizeUnit n = "G" := by
  refine ⟨by decide, by decide, by decide, by decide, by decide, by decide, by decide, ?_⟩
  intro n hn
  have st : ∀ (f num pw i : Nat), 1024 ^ (pw + 1) ≤ num → i < 3 →
      hloopF (f + 1) (num, pw) i = hloopF f (num, pw + 1) (i + 1) := by
    intro f num pw i ha hb
    show (if 1024 ^ (pw + 1) ≤ num ∧ i < 3 then hloopF f (num, pw + 1) (i + 1)
      else ((num, pw), i)) = _
    rw [if_pos ⟨ha, hb⟩]
  have h1 : (1024 : Nat) ^ (0 + 1) ≤ n := le_trans (by norm_num) hn
  have h2 : (1024 : Nat) ^ (1 + 1) ≤ n := le_trans (by norm_num) hn
  have h3 : (1024 : Nat) ^ (2 + 1) ≤ n := hn
  unfold humanizeUnit
  have e1 : hloopF 3 (n, 0) 0 = hloopF 2 (n, 1) 1 := st 2 n 0 0 h1 (by norm_num)
  have e2 : hloopF 2 (n, 1) 1 = hloopF 1 (n, 2) 2 := st 1 n 1 1 h2 (by norm_num)
  have e3 : hloopF 1 (n, 2) 2 = hloopF 0 (n, 3) 3 := st 0 n 2 2 h3 (by norm_num)
  rw [e1, e2, e3]
  rfl

/-- C7 witness: the G-tier clause of `humanize_spec` at 1024³. -/
theorem humanize_spec_witness :
    1024 ^ 3 ≤ 1073741824 ∧ humanizeUnit 1073741824 = "G" :=
  ⟨by norm_num, humanize_spec.2.2.2.2.2.2.2 1073741824 (by norm_num)⟩

/-- A single PNG image in `/home`. -/
def fsPng : FS := [(absPath ["home", "a.png"], .img 2 800 600 1000)]

/-- Convert-to-same-format request: `/home/a.png` with `convert = "png"`. -/
def reqConvSame : Request :=
  ⟨absPath ["home", "a.png"], 80, absPath ["home", "out"], "", "", (0, 0), some "png"⟩

/-- C5: converting to the format the destination already has runs
`convert_image` anyway (`compress` only checks truthiness of `convert`),
which saves to the same path and then unlinks it — the destination file is
deleted and the pipeline fails with `FileNotFoundError` at the next step,
instead of leaving the destination in place unchanged. -/
theorem convert_same_format_destroys_destination :
    (compressRun envOk reqConvSame fsPng).1
      = .error (.fileNotFound (absPath ["home", "out", "a.png"])) ∧
    fsLookup (compressRun envOk reqConvSame fsPng).2.1
      (absPath ["home", "out", "a.png"]) = none ∧
    (compressRun envOk reqConvSame fsPng).2.2.tools = [] := by decide

/-- A source plus a pre-existing different file at the destination path. -/
def fsPre : FS :=
  [(absPath ["home", "a.jpg"], .img 1 800 600 1000),
   (absPath ["home", "out", "a.jpg"], .img 9 10 10 50)]

/-- C4 counterexample: with a different file already at the computed
destination, `copy_move` raises no error and silently replaces it. -/
theorem copy_move_overwrites_existing :
    (copy_move (absPath ["home", "a.jpg"]) (absPath ["home", "out", "a.jpg"])
      none fsPre).1 = .ok () ∧
    fsLookup (copy_move (absPath ["home", "a.jpg"]) (absPath ["home", "out", "a.jpg"])
      none fsPre).2 (absPath ["home", "out", "a.jpg"])
      = some (.img 1 800 600 1000) := by decide

/-- C4 (amended): the staging step detects only the source and destination
being the very same file (`shutil.SameFileError`); whenever the paths
differ, the copy (and, with a source suffix, the rename) succeeds and any
existing file at the destination or renamed-source path is silently
overwritten with the source's content. -/
theorem copy_move_silent_overwrite (fs : FS) (src dest : PyPath)
    (sn : Option PyPath) (c : Content)
    (hsrc : fsLookup fs src = some c)
    (hne : match sn with | none => src ≠ dest | some r => r ≠ dest) :
    (copy_move src dest sn fs).1 = .ok () ∧
    fsLookup (copy_move src dest sn fs).2 dest = some c ∧
    ∀ r, sn = some r → fsLookup (copy_move src dest sn fs).2 r = some c := by
  rcases copy_move_cases src dest sn fs c hsrc with
    ⟨hn, hsd, hcm⟩ | ⟨hn, hsd, hcm⟩ | ⟨r, hr, hrd, hcm⟩ | ⟨r, hr, hrd, hcm⟩
  · subst hn; exact absurd hsd hne
  · subst hn
    refine ⟨by rw [hcm], by rw [hcm]; simp, ?_⟩
    intro r hr
    cases hr
  · subst hr; exact absurd hrd hne
  · subst hr
    refine ⟨by rw [hcm], by rw [hcm]; simp, ?_⟩
    intro r' hr'
    have hrr := Option.some.inj hr'
    subst hrr
    rw [hcm]
    simp [hrd]

/-- C4 witness: `copy_move_silent_overwrite` on the concrete overwrite
scenario. -/
theorem copy_move_silent_overwrite_witness :
    fsLookup fsPre (absPath ["home", "a.jpg"]) = some (.img 1 800 600 1000) ∧
    (copy_move (absPath ["home", "a.jpg"]) (absPath ["home", "out", "a.jpg"])
      none fsPre).1 = .ok () :=
  ⟨by decide,
   (copy_move_silent_overwrite fsPre (absPath ["home", "a.jpg"])
     (absPath ["home", "out", "a.jpg"]) none (.img 1 800 600 1000)
     (by decide) (by decide)).1⟩

/-- All executables present, all exiting with status 1 and diagnostics on
the captured stream. -/
def envFail : ToolEnv := ⟨fun _ => false, fun _ => 1, fun _ => "tool failed"⟩

/-- C3 counterexample: the external tool runs and exits with status 1, yet
`compress` reports success — no `ToolExecutionFailed` outcome exists and
the captured output is discarded. -/
theorem nonzero_exit_reported_success :
    (compressRun envFail reqPlain fsJpg).1 =
      .ok ⟨absPath ["home", "out", "a.jpg"], absPath ["home", "a.jpg"],
        1000, 1000, [(800, 600)]⟩ ∧
    (compressRun envFail reqPlain fsJpg).2.2.tools
      = [jpegCmd 80 (absPath ["home", "out", "a.jpg"])] ∧
    envFail.exitCode (jpegCmd 80 (absPath ["home", "out", "a.jpg"])) ≠ 0 := by
  refine ⟨by decide, by decide, ?_⟩
  intro h
  cases h

/-- C3 (amended): `run_cmd` captures and discards the completed process:
the whole engine run — outcome, file system and trace — is independent of
the tools' exit statuses and output streams; only executable presence
(`missing`) matters. -/
theorem compress_ignores_tool_exit (e1 e2 : ToolEnv) (req : Request) (fs : FS)
    (h : e1.missing = e2.missing) :
    compressRun e1 req fs = compressRun e2 req fs := by
  have hrc : ∀ cmd, runCmd e1 cmd = runCmd e2 cmd := by
    intro cmd
    unfold runCmd
    rw [h]
  have hrt : ∀ cmd img tool fs' tr,
      runTool e1 cmd img tool fs' tr = runTool e2 cmd img tool fs' tr := by
    intro cmd img tool fs' tr
    unfold runTool
    rw [hrc]
  have has : ∀ dest sz fs1,
      compressAfterStage e1 req dest sz fs1 = compressAfterStage e2 req dest sz fs1 := by
    intro dest sz fs1
    unfold compressAfterStage
    simp only [hrt]
  unfold compressRun
  simp only [has]

/-- C3 witness: two environments equal on `missing` but with different exit
statuses and outputs give identical runs. -/
theorem compress_ignores_tool_exit_witness :
    envOk.missing = envFail.missing ∧
    compressRun envOk reqPlain fsJpg = compressRun envFail reqPlain fsJpg :=
  ⟨rfl, compress_ignores_tool_exit envOk envFail reqPlain fsJpg rfl⟩

/-- Resize request with a zero height bound and a nonzero width bound. -/
def reqResizeDeg : Request :=
  ⟨absPath ["home", "a.jpg"], 80, absPath ["home", "out"], "", "", (100, 0), none⟩

/-- C6 counterexample: with `size = (100, 0)` (maxHeight 0) the claim says
resize is skipped entirely (no resize attempted); the code only skips for
`(0, 0)`, so `resize_image` IS invoked, with the degenerate bound passed
straight to the imaging library. -/
theorem resize_attempted_with_zero_height :
    (compressRun envOk reqResizeDeg fsJpg).2.2.resizes
      = [(absPath ["home", "out", "a.jpg"], 100, 0)] := by decide

/-- C6 (amended): the resize step is skipped exactly when `size` equals
`(0, 0)`: for `(0, 0)` no resize call is ever made, and for any other
`size` — including `(w, 0)` and `(0, h)` — every successful run performs a
resize call. -/
theorem resize_skip_iff_zero (env : ToolEnv) (req : Request) (fs0 : FS) :
    (req.size = (0, 0) → (compressRun env req fs0).2.2.resizes = []) ∧
    (req.size ≠ (0, 0) → ∀ d, (compressRun env req fs0).1 = Except.ok d →
      (compressRun env req fs0).2.2.resizes ≠ []) := by
  constructor
  · intro h
    cases hsrc : fsLookup fs0 req.source with
    | none =>
      unfold compressRun
      rw [hsrc]
      rfl
    | some c0 =>
      rcases compressRun_cases env req fs0 c0 hsrc with
        ⟨_, _, _, heq⟩ | ⟨_, _, heq⟩ | ⟨_, _, _, heq⟩ | ⟨_, _, heq⟩
      · rw [heq]; rfl
      · rw [heq]; exact afterStage_resizes_zero env req (destName req) c0.csize _ h
      · rw [heq]; rfl
      · rw [heq]; exact afterStage_resizes_zero env req (destName req) c0.csize _ h
  · intro h d hok
    cases hsrc : fsLookup fs0 req.source with
    | none =>
      unfold compressRun at hok
      rw [hsrc] at hok
      cases hok
    | some c0 =>
      rcases compressRun_cases env req fs0 c0 hsrc with
        ⟨_, _, _, heq⟩ | ⟨_, _, heq⟩ | ⟨_, _, _, heq⟩ | ⟨_, _, heq⟩
      · rw [heq] at hok; cases hok
      · rw [heq] at hok ⊢
        rcases afterStage_resizes_nonzero env req (destName req) c0.csize _ h with hr | hbad
        · exact hr
        · rw [hok] at hbad; cases hbad
      · rw [heq] at hok; cases hok
      · rw [heq] at hok ⊢
        rcases afterStage_resizes_nonzero env req (destName req) c0.csize _ h with hr | hbad
        · exact hr
        · rw [hok] at hbad; cases hbad

/-- C6 witness: `resize_skip_iff_zero` at the plain request (no resize) and
at a genuine resize request. -/
theorem resize_skip_iff_zero_witness :
    (compressRun envOk reqPlain fsJpg).2.2.resizes = [] ∧
    (compressRun envOk reqResizeDeg fsJpg).2.2.resizes ≠ [] :=
  ⟨(resize_skip_iff_zero envOk reqPlain fsJpg).1 (by decide),
   (resize_skip_iff_zero envOk reqResizeDeg fsJpg).2 (by decide)
     ⟨absPath ["home", "out", "a.jpg"], absPath ["home", "a.jpg"],
       1000, 1000, [(800, 600), (100, 0)]⟩ (by decide)⟩

/-- Batch fixture: one source already sitting inside the output directory
(its computed destination is itself: `SameFileError`), plus one good
image. -/
def fsBatch : FS :=
  [(absPath ["home", "out", "a.jpg"], .img 4 100 100 500),
   (absPath ["home", "b.jpg"], .img 5 800 600 1000)]

/-- The request the CLI builds for the good image of `fsBatch`. -/
def reqBatchB : Request :=
  ⟨absPath ["home", "b.jpg"], 80, absPath ["home", "out"], "", "", (0, 0), none⟩

/-- C2 counterexample: a batch of two images in which the first fails with
an `OSError` (`SameFileError`: its destination is itself).  The second
image compresses successfully, yet the CLI exits — no result, including
the good image's, is displayed.  The per-image failure aborts the batch's
reporting. -/
theorem batch_failure_aborts_reporting :
    cliBatch envOk fsBatch
      [absPath ["home", "out", "a.jpg"], absPath ["home", "b.jpg"]]
      (absPath ["home", "out"]) 80 none none none (0, 0) = .exitError ∧
    exceptOk (compressRun envOk reqBatchB fsBatch).1 = true := by decide

/-- C2 (amended): every submitted image is compressed (all futures are
submitted before collection and run to completion), but any per-image
error aborts the batch's result reporting: if any outcome is an error, the
collection loop never reaches the display step (it exits on the first
`OSError`/`FileNotFoundError` and crashes on any other exception).  Files
with unsupported extensions never produce a per-image failure because the
CLI filters them out before submission: everything `cliFilter` keeps has a
suffix from the supported list. -/
theorem batch_abort_on_any_error :
    (∀ (outcomes : List (Except KErr ImageData)) (acc : List ImageData),
      (∃ e, Except.error e ∈ outcomes) →
      ∀ l, cliCollect outcomes acc ≠ .display l) ∧
    (∀ (sources : List PyPath) (p : PyPath), p ∈ cliFilter sources →
      imageTypesCli.contains (strLower (stemExt p.name).2) = true) := by
  constructor
  · intro outcomes
    induction outcomes with
    | nil =>
      intro acc he l
      obtain ⟨e, he⟩ := he
      cases he
    | cons o rest ih =>
      intro acc he l
      obtain ⟨e, he⟩ := he
      cases o with
      | ok d =>
        have hrest : Except.error e ∈ rest := by
          rcases List.mem_cons.mp he with h | h
          · cases h
          · exact h
        exact ih (acc ++ [d]) ⟨e, hrest⟩ l
      | error e2 =>
        by_cases hos : e2.isOSError
        · simp [cliCollect, hos]
        · simp [cliCollect, hos]
  · intro sources p hp
    exact (List.mem_filter.mp hp).2

/-- C2 witness: `batch_abort_on_any_error` at a concrete erroring batch and
a concrete filtered source list. -/
theorem batch_abort_on_any_error_witness :
    cliCollect [Except.error (KErr.sameFile (absPath ["home", "out", "a.jpg"]))] []
      ≠ BatchOutcome.display [] ∧
    imageTypesCli.contains (strLower (stemExt (absPath ["home", "b.jpg"]).name).2)
      = true :=
  ⟨batch_abort_on_any_error.1 [Except.error (KErr.sameFile (absPath ["home", "out", "a.jpg"]))]
      [] ⟨KErr.sameFile (absPath ["home", "out", "a.jpg"]), by simp⟩ [],
   batch_abort_on_any_error.2 [absPath ["home", "b.jpg"]]
      (absPath ["home", "b.jpg"]) (by decide)⟩

/-- C8: the file-naming functions.  `create_new_name` produces exactly
`stem + suffix + extension` as the file name; with the empty suffix the
name is the original file name (identity); with an absolute output
directory the destination lands in it, and the renamed source stays in the
source's own (absolute) directory.  `make_filenames` wires these up:
destination always, renamed source only for a truthy source suffix.  (The
embedding is pure: `create_new_name` cannot mutate its input path.) -/
theorem file_namer_correct (src outDir : PyPath) (s : String) (req : Request) :
    (create_new_name src outDir s).name
      = (stemExt src.name).1 ++ s ++ (stemExt src.name).2 ∧
    (create_new_name src outDir "").name = src.name ∧
    (outDir.absolute = true → (create_new_name src outDir s).parent = outDir) ∧
    (src.absolute = true → (create_new_name src src.parent s).parent = src.parent) ∧
    destName req = create_new_name req.source req.outputDir req.destSuffix ∧
    (req.sourceSuffix = "" → (make_filenames req).2 = none) ∧
    (req.sourceSuffix.isEmpty = false → (make_filenames req).2
      = some (create_new_name req.source req.source.parent req.sourceSuffix)) := by
  refine ⟨?_, ?_, ?_, ?_, rfl, ?_, ?_⟩
  · simp [create_new_name, pyJoin, relFile, PyPath.name, List.getLast?_concat]
  · simp [create_new_name, pyJoin, relFile, PyPath.name, List.getLast?_concat,
      strAppend_empty, stemExt_recompose]
  · intro h
    simp [create_new_name, pyJoin, relFile, PyPath.parent, h, List.dropLast_concat]
    rw [← h]
  · intro h
    simp [create_new_name, pyJoin, relFile, PyPath.parent, h, List.dropLast_concat]
  · intro h
    simp [make_filenames, h]
    decide
  · intro h
    simp [make_filenames, h]

/-- C8 witness: `file_namer_correct` on `photo.jpg` with suffix `-SMALL`,
discharging the absolute-directory hypotheses. -/
theorem file_namer_correct_witness :
    (absPath ["home", "out"]).absolute = true ∧
    (create_new_name (absPath ["home", "photo.jpg"]) (absPath ["home", "out"])
      "-SMALL").parent = absPath ["home", "out"] ∧
    (create_new_name (absPath ["home", "photo.jpg"]) (absPath ["home", "out"])
      "-SMALL").name = "photo-SMALL.jpg" :=
  ⟨by decide,
   (file_namer_correct (absPath ["home", "photo.jpg"]) (absPath ["home", "out"])
     "-SMALL" reqPlain).2.2.1 (by decide),
   by
     have h := (file_namer_correct (absPath ["home", "photo.jpg"])
       (absPath ["home", "out"]) "-SMALL" reqPlain).1
     rw [h]
     decide⟩

/-- A GIF source (unsupported extension). -/
def fsGif : FS := [(absPath ["home", "a.gif"], .img 3 800 600 1000)]

/-- A `.gif` request with format conversion to png. -/
def reqGifConv : Request :=
  ⟨absPath ["home", "a.gif"], 80, absPath ["home", "out"], "", "", (0, 0), some "png"⟩

/-- A `.gif` request with no conversion. -/
def reqGif : Request :=
  ⟨absPath ["home", "a.gif"], 80, absPath ["home", "out"], "", "", (0, 0), none⟩

/-- C9 counterexample: a request whose file extension is `.gif` but which
asks for conversion to png does NOT fail with UnsupportedType — the
convert step re-encodes the destination to `.png` before `get_type` runs,
the run succeeds, and an external compression tool IS invoked. -/
theorem gif_with_convert_tool_invoked :
    exceptOk (compressRun envOk reqGifConv fsGif).1 = true ∧
    (compressRun envOk reqGifConv fsGif).2.2.tools ≠ [] := by decide

/-- C9 (amended): the engine decides the format from the destination
file's name (after the optional conversion).  For every request with no
conversion requested whose destination name has an extension outside the
supported table, no external tool is ever invoked — on any file system,
even when an earlier step fails — and whenever the source exists and the
staging copy succeeds, `compress` fails with the UnsupportedType
(`ValueError`) error. -/
theorem unsupported_dest_fails_before_tool (env : ToolEnv) (req : Request) (fs0 : FS)
    (hconv : optTruthy req.convert = false)
    (htype : typesMap (extTag (destName req)) = none) :
    (compressRun env req fs0).2.2.tools = [] ∧
    ∀ c0, fsLookup fs0 req.source = some c0 →
      (copy_move req.source (destName req) (make_filenames req).2 fs0).1 = .ok () →
      (compressRun env req fs0).1 = .error (.unsupported (extTag (destName req))) := by
  constructor
  · cases hsrc : fsLookup fs0 req.source with
    | none =>
      unfold compressRun
      rw [hsrc]
      rfl
    | some c0 =>
      rcases compressRun_cases env req fs0 c0 hsrc with
        ⟨_, _, _, heq⟩ | ⟨_, _, heq⟩ | ⟨_, _, _, heq⟩ | ⟨_, _, heq⟩
      · rw [heq]; rfl
      · rw [heq]
        exact afterStage_unsupported_tools env req (destName req) c0.csize _ hconv htype
      · rw [heq]; rfl
      · rw [heq]
        exact afterStage_unsupported_tools env req (destName req) c0.csize _ hconv htype
  · intro c0 hsrc hcm
    rcases compressRun_cases env req fs0 c0 hsrc with
      ⟨_, _, hne, _⟩ | ⟨_, _, heq⟩ | ⟨_, _, hne, _⟩ | ⟨_, _, heq⟩
    · exact absurd hcm hne
    · rw [heq]
      exact afterStage_unsupported_err env req (destName req) c0.csize _ c0
        hconv htype (by simp)
    · exact absurd hcm hne
    · rw [heq]
      exact afterStage_unsupported_err env req (destName req) c0.csize _ c0
        hconv htype (by simp)

/-- C9 witness: `unsupported_dest_fails_before_tool` on the concrete
`.gif` request without conversion. -/
theorem unsupported_dest_witness :
    optTruthy reqGif.convert = false ∧
    typesMap (extTag (destName reqGif)) = none ∧
    (compressRun envOk reqGif fsGif).2.2.tools = [] ∧
    (compressRun envOk reqGif fsGif).1
      = .error (.unsupported (extTag (destName reqGif))) :=
  ⟨rfl, by decide,
   (unsupported_dest_fails_before_tool envOk reqGif fsGif rfl (by decide)).1,
   (unsupported_dest_fails_before_tool envOk reqGif fsGif rfl (by decide)).2
     (.img 3 800 600 1000) (by decide) (by decide)⟩

/-- Source-rename request whose destination coincides with the original
source path (output directory = the source's own directory, no destination
suffix). -/
def reqInPlace : Request :=
  ⟨absPath ["home", "a.jpg"], 80, absPath ["home"], "", "-ORIG", (0, 0), none⟩

/-- Source-rename request with a separate output directory. -/
def reqRen : Request :=
  ⟨absPath ["home", "a.jpg"], 80, absPath ["home", "out"], "", "-ORIG", (0, 0), none⟩

/-- C10 counterexample: with a source suffix, the result records the
original pre-rename path (`/home/a.jpg`) as `source_image` — but when the
output directory is the source's own directory and there is no destination
suffix, the destination copy is created at that very path, so a file DOES
exist at the path the result reports as the original image. -/
theorem renamed_source_path_reoccupied :
    (compressRun envOk reqInPlace fsJpg).1
      = .ok ⟨absPath ["home", "a.jpg"], absPath ["home", "a.jpg"],
          1000, 1000, [(800, 600)]⟩ ∧
    fsLookup (compressRun envOk reqInPlace fsJpg).2.1 (absPath ["home", "a.jpg"])
      ≠ none := by decide

/-- C10 (amended): for every request with a non-empty source suffix, any
successful result records the original pre-rename path as its source; and
provided the destination path (and, when conversion is requested, the
converted path) differs from the original source path, no file remains at
that recorded path after the run — the file survives only under the
renamed name.  When the destination coincides with the source path, the
destination copy occupies the reported path. -/
theorem source_recorded_original_and_removed (env : ToolEnv) (req : Request)
    (fs0 : FS) (c0 : Content)
    (hsrc : fsLookup fs0 req.source = some c0)
    (hss : req.sourceSuffix.isEmpty = false)
    (hd : destName req ≠ req.source)
    (hcv : optTruthy req.convert = true → convertedName req ≠ req.source) :
    (∀ d, (compressRun env req fs0).1 = Except.ok d → d.source_image = req.source) ∧
    fsLookup (compressRun env req fs0).2.1 req.source = none := by
  have hrs := renamedName_ne_source req hss
  rcases compressRun_cases env req fs0 c0 hsrc with
    ⟨hb, _, _, _⟩ | ⟨hb, _, _⟩ | ⟨_, _, _, heq⟩ | ⟨_, hrd, heq⟩
  · rw [hss] at hb; cases hb
  · rw [hss] at hb; cases hb
  · constructor
    · intro d hok
      rw [heq] at hok
      cases hok
    · rw [heq]
      dsimp only
      simp [Ne.symm hrs]
  · constructor
    · intro d hok
      rw [heq] at hok
      exact afterStage_ok_source env req (destName req) c0.csize _ d hok
    · rw [heq]
      rw [afterStage_frame env req (destName req) c0.csize _ req.source
        (Ne.symm hd) (fun hc => Ne.symm (hcv hc))]
      simp [Ne.symm hrs, Ne.symm hd]

/-- C10 witness: `source_recorded_original_and_removed` on the concrete
rename request with a separate output directory. -/
theorem source_recorded_witness :
    fsLookup fsJpg reqRen.source = some (.img 1 800 600 1000) ∧
    reqRen.sourceSuffix.isEmpty = false ∧
    destName reqRen ≠ reqRen.source ∧
    fsLookup (compressRun envOk reqRen fsJpg).2.1 reqRen.source = none :=
  ⟨by decide, rfl, by decide,
   (source_recorded_original_and_removed envOk reqRen fsJpg (.img 1 800 600 1000)
     (by decide) rfl (by decide) (by decide)).2⟩

/-- An extension-less image file (`/home/photo`). -/
def fsNoExt : FS := [(absPath ["home", "photo"], .img 7 800 600 1000)]

/-- A request whose convert-step output path collides with the
renamed-source path: source `/home/photo`, source suffix `".png"`,
destination suffix `".x"`, output directory `/home`, convert to png.
The staged destination is `/home/photo.x`; converting it to png writes
`/home/photo.png` — exactly the renamed source. -/
def reqCollide : Request :=
  ⟨absPath ["home", "photo"], 80, absPath ["home"], ".x", ".png", (0, 0), some "png"⟩

/-- C1 counterexample: a later pipeline step (Convert) overwrites the
renamed source.  After the run completes, the original bytes exist neither
at the original source path nor at the renamed-source path: the convert
step re-encoded over the renamed source and the tool then rewrote it. -/
theorem convert_collision_destroys_source :
    fsLookup (compressRun envOk reqCollide fsNoExt).2.1 (absPath ["home", "photo"])
      ≠ some (.img 7 800 600 1000) ∧
    fsLookup (compressRun envOk reqCollide fsNoExt).2.1 (renamedName reqCollide)
      ≠ some (.img 7 800 600 1000) ∧
    renamedName reqCollide = absPath ["home", "photo.png"] ∧
    convertedName reqCollide = renamedName reqCollide ∧
    exceptOk (compressRun envOk reqCollide fsNoExt).1 = true := by decide

/-- C1 (amended): staging preserves the source.  For every request whose
convert-step output path does not collide with the surviving source path
(automatic when no conversion is requested), after `compress` returns —
whether it succeeded or failed at any step — the original content still
exists at the surviving source path (the renamed-source path when a source
suffix was requested, else the original source path), and every path other
than the original source, the surviving path, the destination and the
converted destination is untouched: later steps mutate or delete only the
destination copy. -/
theorem stage_preserves_source (env : ToolEnv) (req : Request) (fs0 : FS)
    (c0 : Content)
    (hsrc : fsLookup fs0 req.source = some c0)
    (hconvne : optTruthy req.convert = true →
      convertedName req ≠ survivingPath req) :
    fsLookup (compressRun env req fs0).2.1 (survivingPath req) = some c0 ∧
    ∀ p, p ≠ req.source → p ≠ survivingPath req → p ≠ destName req →
      p ≠ convertedName req →
      fsLookup (compressRun env req fs0).2.1 p = fsLookup fs0 p := by
  rcases compressRun_cases env req fs0 c0 hsrc with
    ⟨hss, hsd, _, heq⟩ | ⟨hss, hsd, heq⟩ | ⟨hss, hrd, _, heq⟩ | ⟨hss, hrd, heq⟩
  · -- no source rename; copy refused: file system unchanged
    rw [heq]
    have hsur : survivingPath req = req.source := by simp [survivingPath, hss]
    constructor
    · rw [hsur]; exact hsrc
    · intro p _ _ _ _; rfl
  · -- no source rename; copy succeeded
    rw [heq]
    have hsur : survivingPath req = req.source := by simp [survivingPath, hss]
    have hsurne : survivingPath req ≠ destName req := by rw [hsur]; exact hsd
    constructor
    · rw [afterStage_frame env req (destName req) c0.csize _ (survivingPath req)
        hsurne (fun hc => Ne.symm (hconvne hc))]
      rw [hsur]
      simp only [fsLookup_update, if_neg hsd]
      exact hsrc
    · intro p hp1 hp2 hp3 hp4
      rw [afterStage_frame env req (destName req) c0.csize _ p hp3 (fun _ => hp4)]
      simp only [fsLookup_update, if_neg hp3]
  · -- source renamed; copy refused: rename already on disk
    rw [heq]
    have hsur : survivingPath req = renamedName req := by simp [survivingPath, hss]
    constructor
    · rw [hsur]; simp
    · intro p hp1 hp2 _ _
      rw [hsur] at hp2
      simp [hp2, hp1]
  · -- source renamed; copy succeeded
    rw [heq]
    have hsur : survivingPath req = renamedName req := by simp [survivingPath, hss]
    have hsurne : survivingPath req ≠ destName req := by rw [hsur]; exact hrd
    constructor
    · rw [afterStage_frame env req (destName req) c0.csize _ (survivingPath req)
        hsurne (fun hc => Ne.symm (hconvne hc))]
      rw [hsur]
      simp [hrd]
    · intro p hp1 hp2 hp3 hp4
      rw [afterStage_frame env req (destName req) c0.csize _ p hp3 (fun _ => hp4)]
      rw [hsur] at hp2
      simp [hp3, hp2, hp1]

/-- C1 witness: `stage_preserves_source` on the concrete rename request —
after the full run the original bytes sit untouched at the renamed path. -/
theorem stage_preserves_source_witness :
    fsLookup fsJpg reqRen.source = some (.img 1 800 600 1000) ∧
    survivingPath reqRen = absPath ["home", "a-ORIG.jpg"] ∧
    fsLookup (compressRun envOk reqRen fsJpg).2.1 (survivingPath reqRen)
      = some (.img 1 800 600 1000) :=
  ⟨by decide, by decide,
   (stage_preserves_source envOk reqRen fsJpg (.img 1 800 600 1000)
     (by decide) (by decide)).1⟩
